import Mathlib

/-!
Shallow embedding of the Orbit relevance-ranking engine.

Sources embedded here:
- `src/engine/rank.js` (rankItems, recordInteraction, pinItem, unpinItem, quietItem)
- `src/engine/histogram.ts` (addToHistogram, getHistogramTotal, normalizeHistogram,
  decayHistogram, compressHistogram, createCompressedHistogram, applyRollingWindow,
  calculateAffinity, migrateToCompressed)
- `src/state/itemState.ts` (computeState, getStateScoreMultiplier, createStateContext)

Conventions of the embedding:
- JS timestamps (ISO strings / Date values, compared and subtracted as epoch
  milliseconds) are modelled as `Int` milliseconds since the epoch.
- JS numbers are modelled as `ℚ`; the numeric literals of the source (0.95,
  0.01, ...) are exact in this model.
- A JS object used as a histogram is modelled as an association list in
  iteration order, `List (K × ℚ)`.  No claim below depends on the relative
  order of histogram keys, so the numeric-keys-first reordering of JS objects
  is irrelevant.
- Functions of the source that read the system clock (`new Date()`) receive
  the clock reading as an explicit extra argument `sysNow`, making the clock
  dependence visible in the model.
-/

namespace Orbit

/-- Hour-of-day of an epoch-millisecond timestamp, as `Date.prototype.getHours`
computes it (the embedding fixes the UTC timezone; no claim depends on the
concrete hour value). -/
def jsHours (t : Int) : Int := (t.ediv 3600000).emod 24

/-- Weekday (0 = Sunday .. 6 = Saturday) of an epoch-millisecond timestamp, as
`Date.prototype.getDay` computes it (UTC; the epoch fell on a Thursday, day 4). -/
def jsDay (t : Int) : Int := ((t.ediv 86400000) + 4).emod 7

/-- A histogram: a JS object mapping categorical keys to numeric weights,
modelled as an association list in iteration order. -/
abbrev Histogram (K : Type) := List (K × ℚ)

/-- Value at a key, with absent keys reading as 0 (JS `histogram[key] || 0`). -/
def hlookup {K : Type} [DecidableEq K] : Histogram K → K → ℚ
  | [], _ => 0
  | p :: t, k => if p.1 = k then p.2 else hlookup t k

/-- `addToHistogram` from histogram.ts:
`{...histogram, [key]: (histogram[key] || 0) + amount}`.
The JS spread keeps an existing key at its position with the new value and
appends a fresh key at the end. -/
def addToHistogram {K : Type} [DecidableEq K] (h : Histogram K) (k : K)
    (amount : ℚ := 1) : Histogram K :=
  if h.any fun p => decide (p.1 = k) then
    h.map fun p => if p.1 = k then (p.1, p.2 + amount) else p
  else
    h ++ [(k, amount)]

/-- `getHistogramTotal` from histogram.ts:
`Object.values(histogram).reduce((sum, val) => sum + val, 0)`. -/
def getHistogramTotal {K : Type} (h : Histogram K) : ℚ :=
  (h.map Prod.snd).sum

/-- `DECAY_FACTOR` from histogram.ts. -/
def DECAY_FACTOR : ℚ := 95 / 100

/-- `decayHistogram` from histogram.ts: multiply every weight by `factor` and
keep only the entries whose new value is at least 0.01. -/
def decayHistogram {K : Type} (h : Histogram K) (factor : ℚ := DECAY_FACTOR) :
    Histogram K :=
  h.filterMap fun kv =>
    if kv.2 * factor ≥ 1 / 100 then some (kv.1, kv.2 * factor) else none

/-- `Math.round`, which rounds half toward positive infinity. -/
def jsRound (q : ℚ) : ℤ := ⌊q + 1 / 2⌋

/-- Rounding to 2 decimal places as histogram.ts does it:
`Math.round(value * 100) / 100`. -/
def jsRound2 (q : ℚ) : ℚ := (jsRound (q * 100) : ℚ) / 100

/-- `compressHistogram` from histogram.ts: one decay step (default factor),
optional fold-in of one new observation, then rounding every weight to
2 decimal places. -/
def compressHistogram {K : Type} [DecidableEq K] (h : Histogram K)
    (newObservation : Option K := none) : Histogram K :=
  let compressed := decayHistogram h
  let compressed :=
    match newObservation with
    | some k => addToHistogram compressed k 1
    | none => compressed
  compressed.map fun kv => (kv.1, jsRound2 kv.2)

/-- `calculateAffinity` from histogram.ts:
`total > 0 ? count / total : 0`. -/
def calculateAffinity {K : Type} [DecidableEq K] (h : Histogram K) (k : K) : ℚ :=
  let count := hlookup h k
  let total := getHistogramTotal h
  if total > 0 then count / total else 0

/-- `CompressedHistogram` structure from histogram.ts. -/
structure CompressedHistogram (K : Type) where
  values : Histogram K
  total : ℚ
  lastUpdated : Int
  windowDays : ℚ
deriving DecidableEq

/-- `DEFAULT_WINDOW_DAYS` from histogram.ts. -/
def DEFAULT_WINDOW_DAYS : ℚ := 30

/-- `createCompressedHistogram` from histogram.ts.  The source stamps
`lastUpdated: new Date().toISOString()`; the clock reading is the explicit
`sysNow` argument here. -/
def createCompressedHistogram {K : Type} (sysNow : Int) (values : Histogram K)
    (windowDays : ℚ := DEFAULT_WINDOW_DAYS) : CompressedHistogram K :=
  { values := values
    total := getHistogramTotal values
    lastUpdated := sysNow
    windowDays := windowDays }

/-- `applyRollingWindow` from histogram.ts.  The source takes only the
compressed histogram and reads `const now = new Date()`; that clock reading is
the explicit `sysNow` argument here.  It applies
`Math.floor(daysSinceUpdate)` decay steps (default factor) and restamps the
histogram. -/
def applyRollingWindow {K : Type} (sysNow : Int) (histogram : CompressedHistogram K) :
    CompressedHistogram K :=
  let daysSinceUpdate : ℚ := ((sysNow - histogram.lastUpdated : ℤ) : ℚ) / 86400000
  let decayIterations := (Int.floor daysSinceUpdate).toNat
  let values := (fun v => decayHistogram v)^[decayIterations] histogram.values
  createCompressedHistogram sysNow values histogram.windowDays

/-! ### Item lifecycle state machine (`src/state/itemState.ts`) -/

/-- `ItemState` from itemState.ts. -/
inductive ItemState where
  | new
  | active
  | quieted
  | decaying
  | archived
deriving DecidableEq

/-- `StateContext` from itemState.ts.  Dates become `Int` epoch milliseconds,
nullable dates become `Option Int`. -/
structure StateContext where
  now : Int
  createdAt : Int
  lastSeenAt : Option Int
  quietUntil : Option Int
  ignoredStreak : Nat
  isRemoved : Bool
deriving DecidableEq

/-- `NOVELTY_HOURS` from itemState.ts: `ITEM_DEFAULTS.NOVELTY_HOURS || 24`.
The constants module is not among the provided sources; the value is the
fallback of that expression, which is also the default the spec names. -/
def NOVELTY_HOURS : ℚ := 24

/-- `DECAY_THRESHOLD_DAYS` from itemState.ts. -/
def DECAY_THRESHOLD_DAYS : ℚ := 7

/-- `IGNORED_STREAK_THRESHOLD` from itemState.ts. -/
def IGNORED_STREAK_THRESHOLD : Nat := 5

/-- The guard `quietUntil && quietUntil > now` of computeState (a non-null
Date is truthy). -/
def quietGuard (ctx : StateContext) : Bool :=
  match ctx.quietUntil with
  | some q => decide (q > ctx.now)
  | none => false

/-- The guard `ageHours < NOVELTY_HOURS` of computeState, with
`ageHours = (now - createdAt) / (1000 * 60 * 60)`. -/
def noveltyGuard (ctx : StateContext) : Bool :=
  decide (((ctx.now - ctx.createdAt : ℤ) : ℚ) / (1000 * 60 * 60) < NOVELTY_HOURS)

/-- The guard `ignoredStreak >= IGNORED_STREAK_THRESHOLD` of computeState. -/
def streakGuard (ctx : StateContext) : Bool :=
  decide (ctx.ignoredStreak ≥ IGNORED_STREAK_THRESHOLD)

/-- The guard `lastSeenAt && daysSinceLastSeen > DECAY_THRESHOLD_DAYS` of
computeState, with `daysSinceLastSeen = (now - lastSeenAt) / (1000*60*60*24)`. -/
def lastSeenGuard (ctx : StateContext) : Bool :=
  match ctx.lastSeenAt with
  | some ls => decide (((ctx.now - ls : ℤ) : ℚ) / (1000 * 60 * 60 * 24) > DECAY_THRESHOLD_DAYS)
  | none => false

/-- `computeState` from itemState.ts: the early-return chain
archived / quieted / new / decaying (streak) / decaying (stale) / active. -/
def computeState (ctx : StateContext) : ItemState :=
  if ctx.isRemoved then ItemState.archived
  else if quietGuard ctx then ItemState.quieted
  else if noveltyGuard ctx then ItemState.new
  else if streakGuard ctx then ItemState.decaying
  else if lastSeenGuard ctx then ItemState.decaying
  else ItemState.active

/-- `getStateScoreMultiplier` from itemState.ts. -/
def getStateScoreMultiplier : ItemState → ℚ
  | ItemState.new => 12 / 10
  | ItemState.active => 1
  | ItemState.quieted => 1 / 10
  | ItemState.decaying => 5 / 10
  | ItemState.archived => 0

/-- `isVisibleState` from itemState.ts. -/
def isVisibleState (state : ItemState) : Bool :=
  decide (state ≠ ItemState.archived)

/-- The signals shape accepted by `createStateContext` in itemState.ts. -/
structure LCSignals where
  createdAt : Int
  lastSeenAt : Option Int
  quietUntil : Option Int
  ignoredStreak : Nat
deriving DecidableEq

/-- `createStateContext` from itemState.ts.  The source fills the `now` field
with `new Date()`; that clock reading is the explicit `sysNow` argument here. -/
def createStateContext (sysNow : Int) (signals : LCSignals)
    (isRemoved : Bool := false) : StateContext :=
  { now := sysNow
    createdAt := signals.createdAt
    lastSeenAt := signals.lastSeenAt
    quietUntil := signals.quietUntil
    ignoredStreak := signals.ignoredStreak
    isRemoved := isRemoved }

/-! ### Item data model (`src/engine/types.js` and `src/engine/rank.js`) -/

/-- Per-item signals, as rank.js reads and writes them.  The counters are the
non-negative integers of the data model; `lastSeenAt`, `pinUntil` and
`quietUntil` are nullable timestamps.  The four histogram fields are `Option`
so that an absent (`undefined`) histogram object is distinguishable from a
present one: rank.js treats them differently (`signals.hourHistogram || {}`),
and whether the field holds an object decides whether the in-place histogram
update is visible through the original item reference. -/
structure Signals where
  seenCount : Nat
  openedCount : Nat
  dismissedCount : Nat
  lastSeenAt : Option Int
  ignoredStreak : Nat
  isPinned : Bool
  pinUntil : Option Int
  quietUntil : Option Int
  isRemoved : Bool
  hourHistogram : Option (Histogram Int)
  dayHistogram : Option (Histogram Int)
  placeHistogram : Option (Histogram String)
  deviceHistogram : Option (Histogram String)
deriving DecidableEq

/-- The scoring output rankItems attaches as `computed`. -/
structure Computed where
  score : ℚ
  distance : ℚ
  reasons : List String
  updatedAt : Int
deriving DecidableEq

/-- One backlog item. -/
structure Item where
  id : String
  title : String
  createdAt : Int
  signals : Signals
  computed : Option Computed
deriving DecidableEq

/-- The situational context supplied by the caller. -/
structure Context where
  now : Int
  hour : Int
  day : Int
  device : String
  place : String
  sessionId : String
deriving DecidableEq

/-- The score of an item as the rankItems sort comparator reads it
(`item.computed.score`; 0 for an item that has not been scored, which never
happens inside rankItems). -/
def cscore (i : Item) : ℚ :=
  match i.computed with
  | some c => c.score
  | none => 0

/-- Result of `computeRelevance`. -/
structure ScoreResult where
  score : ℚ
  reasons : List String
deriving DecidableEq

/-- Modelled from the spec: `scoreToDistance` lives in `src/engine/score.js`,
which is not among the provided sources (only its test suite is).  The spec
defines it as the exact linear inverse `distance = 1 - score`. -/
def scoreToDistance (score : ℚ) : ℚ := 1 - score

/-- Modelled from the spec: the relevance scorer `computeRelevance` lives in
`src/engine/score.js`, which is not among the provided sources (only its test
suite is).  This definition follows spec section 4.3 step by step: base 0.5;
novelty boost (+0.2, reason "newly added") inside the 24-hour window; pin
boost (+0.3, reason "pinned") when pinned and the pin expiry is null or in
the future; quiet suppression (multiply the accumulated score by 0.1, reason
"quieted") while quietUntil is in the future; an additive boost of 0.15 times
the affinity for each of the four histogram dimensions, with a reason when
the affinity exceeds 0.3; a recency boost decaying linearly to zero over
7 days (at most 0.2, reason above 0.1), absent when lastSeenAt is null; a
saturating frequency boost on the weighted count seenCount + 2*openedCount;
a decay penalty min(0.1 * ignoredStreak, 0.5) subtracted from the score, with
reason "fading from focus" when the item is past its novelty window and the
penalty exceeds 0.3; the lifecycle multiplier of `getStateScoreMultiplier`
applied to the running total; and a final clamp to [0, 1].  The boost sizes
and the saturating shape are not pinned down by the spec; they are fixed here
arbitrarily within its wording, and no claim below depends on them. -/
def computeRelevance (item : Item) (ctx : Context) : ScoreResult :=
  let sig := item.signals
  let ageMs : ℚ := ((ctx.now - item.createdAt : ℤ) : ℚ)
  let isNovel : Bool := decide (ageMs < 24 * 3600000)
  let s1 : ℚ := 1 / 2
  let s2 := if isNovel then s1 + 1 / 5 else s1
  let r2 : List String := if isNovel then ["newly added"] else []
  let pinOk : Bool := sig.isPinned &&
    (match sig.pinUntil with
     | none => true
     | some p => decide (ctx.now < p))
  let s3 := if pinOk then s2 + 3 / 10 else s2
  let r3 := if pinOk then r2 ++ ["pinned"] else r2
  let quietOn : Bool :=
    match sig.quietUntil with
    | some q => decide (ctx.now < q)
    | none => false
  let s4 := if quietOn then s3 * (1 / 10) else s3
  let r4 := if quietOn then r3 ++ ["quieted"] else r3
  let hourAff := calculateAffinity (sig.hourHistogram.getD []) ctx.hour
  let dayAff := calculateAffinity (sig.dayHistogram.getD []) ctx.day
  let placeAff := calculateAffinity (sig.placeHistogram.getD []) ctx.place
  let deviceAff := calculateAffinity (sig.deviceHistogram.getD []) ctx.device
  let s5 := s4 + (3 / 20) * hourAff + (3 / 20) * dayAff
    + (3 / 20) * placeAff + (3 / 20) * deviceAff
  let r5 := r4
    ++ (if decide ((3 / 10 : ℚ) < hourAff) then ["often seen at this hour"] else [])
    ++ (if decide ((3 / 10 : ℚ) < dayAff) then ["often seen on this day"] else [])
    ++ (if decide ((3 / 10 : ℚ) < placeAff) then ["often seen at " ++ ctx.place] else [])
    ++ (if decide ((3 / 10 : ℚ) < deviceAff) then ["often seen on this device"] else [])
  let recencyBoost : ℚ :=
    match sig.lastSeenAt with
    | none => 0
    | some ls =>
      let days : ℚ := ((ctx.now - ls : ℤ) : ℚ) / 86400000
      (1 / 5) * max 0 (1 - days / 7)
  let s6 := s5 + recencyBoost
  let r6 := if decide ((1 / 10 : ℚ) < recencyBoost)
    then r5 ++ ["recently on your mind"] else r5
  let w : ℚ := (sig.seenCount : ℚ) + 2 * (sig.openedCount : ℚ)
  let s7 := s6 + (1 / 5) * (w / (w + 10))
  let streakDecay : ℚ := min ((sig.ignoredStreak : ℚ) * (1 / 10)) (1 / 2)
  let s8 := s7 - streakDecay
  let r8 := if (!isNovel) && decide ((3 / 10 : ℚ) < streakDecay)
    then r6 ++ ["fading from focus"] else r6
  let st := computeState
    { now := ctx.now
      createdAt := item.createdAt
      lastSeenAt := sig.lastSeenAt
      quietUntil := sig.quietUntil
      ignoredStreak := sig.ignoredStreak
      isRemoved := sig.isRemoved }
  let s9 := s8 * getStateScoreMultiplier st
  { score := max 0 (min 1 s9), reasons := r8 }

/-! ### Ranking (`src/engine/rank.js`) -/

/-- `DEFAULTS.MAX_VISIBLE`: the constants module is not among the provided
sources; the spec fixes the default visible-set size at 3 to 5.  No claim
depends on this value (each claim quantifies over `maxVisible`). -/
def MAX_VISIBLE : Nat := 5

/-- The map body of rankItems: score one item via `computeRelevance` and
attach `computed = {score, distance, reasons, updatedAt: context.now}`. -/
def scoreItem (ctx : Context) (item : Item) : Item :=
  let res := computeRelevance item ctx
  { item with
      computed := some
        { score := res.score
          distance := scoreToDistance res.score
          reasons := res.reasons
          updatedAt := ctx.now } }

/-- The ordering the rankItems comparator `(a, b) => b.computed.score -
a.computed.score` establishes: `a` may precede `b` when the score of `a` is
at least the score of `b`. -/
def rankLE (a b : Item) : Prop := cscore b ≤ cscore a

instance : DecidableRel rankLE :=
  fun a b => inferInstanceAs (Decidable (cscore b ≤ cscore a))

instance : IsTotal Item rankLE :=
  ⟨fun a b => le_total (cscore b) (cscore a)⟩

instance : IsTrans Item rankLE :=
  ⟨fun _ _ _ hab hbc => le_trans hbc hab⟩

/-- Result of `rankItems`. -/
structure RankResult where
  all : List Item
  visible : List Item
deriving DecidableEq

/-- `rankItems` from rank.js: score every item, sort the scored copies by
score descending, and slice off the visible prefix.  `Array.prototype.sort`
is stable and the comparator is a consistent descending comparison on the
scores, so the unique result JS guarantees is the stable descending sort,
which is what `List.insertionSort` with `rankLE` computes (ties keep the
earlier-scored item first). -/
def rankItems (items : List Item) (ctx : Context)
    (maxVisible : Nat := MAX_VISIBLE) : RankResult :=
  let scored := items.map (scoreItem ctx)
  let sorted := scored.insertionSort rankLE
  { all := sorted, visible := sorted.take maxVisible }

/-- `recordInteraction` from rank.js.  The source takes an item, an action
string and a context, shallow-copies the signals (`{...item.signals}`),
updates the counters of the matched action, and then writes the four
histogram updates in place (`signals.hourHistogram[hour] = ... + 1`).
Because the copy is shallow, each histogram field of the copy is the SAME
object as the one of the input item whenever the input field holds an object;
the in-place writes are then visible through the input reference.  The
embedding passes that state explicitly: the first component is the returned
new item and the second is the input item as it stands after the call (a
histogram field of the input is updated exactly when it held an object, i.e.
was `some`; an `undefined` field gets a fresh `{}` in the copy only). -/
def recordInteraction (item : Item) (action : String) (ctx : Context) :
    Item × Item :=
  let sig0 := item.signals
  let sig1 :=
    if action = "seen" then
      { sig0 with
          seenCount := sig0.seenCount + 1
          lastSeenAt := some ctx.now
          ignoredStreak := 0 }
    else if action = "opened" then
      { sig0 with
          openedCount := sig0.openedCount + 1
          lastSeenAt := some ctx.now
          ignoredStreak := 0 }
    else if action = "dismissed" then
      { sig0 with
          dismissedCount := sig0.dismissedCount + 1
          ignoredStreak := sig0.ignoredStreak + 1 }
    else sig0
  let hour := jsHours ctx.now
  let day := jsDay ctx.now
  let hh := addToHistogram (sig0.hourHistogram.getD []) hour 1
  let dh := addToHistogram (sig0.dayHistogram.getD []) day 1
  let ph := addToHistogram (sig0.placeHistogram.getD []) ctx.place 1
  let dvh := addToHistogram (sig0.deviceHistogram.getD []) ctx.device 1
  let newSig :=
    { sig1 with
        hourHistogram := some hh
        dayHistogram := some dh
        placeHistogram := some ph
        deviceHistogram := some dvh }
  let origSig :=
    { sig0 with
        hourHistogram := sig0.hourHistogram.map fun _ => hh
        dayHistogram := sig0.dayHistogram.map fun _ => dh
        placeHistogram := sig0.placeHistogram.map fun _ => ph
        deviceHistogram := sig0.deviceHistogram.map fun _ => dvh }
  ({ item with signals := newSig }, { item with signals := origSig })

/-! ### Legacy-histogram migration (`migrateToCompressed` in histogram.ts)

The migration is specified to tolerate malformed legacy data, so its
embedding widens the value type: a histogram value is `Option ℚ`, where
`some q` models any JS value that coerces to the number `q` under the
arithmetic the function performs, and `none` models a value that coerces to
NaN (arbitrary non-numeric junk).  The whole argument is `Option JHist`:
`some h` is an object (`Object.entries` succeeds), `none` is `null` or
`undefined`, on which `Object.entries` throws a TypeError — so the function
returns `Except`, with `Except.error` modelling the thrown exception. -/

/-- A JS numeric value in the migration pipeline: `some q` is an ordinary
number, `none` is NaN. -/
abbrev JNum := Option ℚ

/-- A legacy histogram object: association list of string keys to JS values. -/
abbrev JHist := List (String × JNum)

/-- NaN-aware addition: any operation on NaN yields NaN. -/
def jAdd : JNum → JNum → JNum
  | some a, some b => some (a + b)
  | _, _ => none

/-- NaN-aware division.  The callers below only divide by a total that the
`total === 0` guard has excluded from being the number 0. -/
def jDiv : JNum → JNum → JNum
  | some a, some b => some (a / b)
  | _, _ => none

/-- `Math.min(value, c)` for a constant numeric bound: NaN propagates. -/
def jMin (v : JNum) (c : ℚ) : JNum :=
  v.map fun q => min q c

/-- `Math.round(value * 100)`: NaN propagates, numbers round half up. -/
def jRound100 (v : JNum) : JNum :=
  v.map fun q => (jsRound (q * 100) : ℚ)

/-- Whether a migration value is an actual number that is non-negative
(decidable form used as a hypothesis below). -/
def jNonneg : JNum → Bool
  | some q => decide (0 ≤ q)
  | none => false

/-- `getHistogramTotal` as evaluated on migration values:
`reduce((sum, val) => sum + val, 0)` with NaN propagation. -/
def jTotal (h : JHist) : JNum :=
  h.foldl (fun acc p => jAdd acc p.2) (some 0)

/-- `normalizeHistogram` from histogram.ts, on migration values: if the total
is (the number) 0 the histogram is returned unchanged, otherwise every value
is divided by the total. -/
def jNormalizeHistogram (h : JHist) : JHist :=
  if jTotal h = some 0 then h
  else h.map fun p => (p.1, jDiv p.2 (jTotal h))

/-- The compressed-histogram record produced at the end of the migration
(its `total` is recomputed by `createCompressedHistogram` and its
`lastUpdated` field is the clock reading). -/
structure JCompressed where
  values : JHist
  total : JNum
  lastUpdated : Int
  windowDays : ℚ
deriving DecidableEq

/-- `createCompressedHistogram` as reached from the migration path, on
migration values.  `sysNow` is the `new Date()` reading. -/
def jCreateCompressedHistogram (sysNow : Int) (values : JHist)
    (windowDays : ℚ := DEFAULT_WINDOW_DAYS) : JCompressed :=
  { values := values
    total := jTotal values
    lastUpdated := sysNow
    windowDays := windowDays }

/-- `migrateToCompressed` from histogram.ts: cap every raw value at 100
(`Math.min(value, 100)`), normalize to a probability distribution, scale to
an assumed 100-interaction baseline rounding to integers
(`Math.round(value * 100)`), and wrap the result.  On a `null`/`undefined`
argument the very first step, `Object.entries(rawHistogram)`, throws a
TypeError, modelled as `Except.error`. -/
def migrateToCompressed (sysNow : Int) (rawHistogram : Option JHist) :
    Except String JCompressed :=
  match rawHistogram with
  | none => Except.error "TypeError: Cannot convert undefined or null to object"
  | some raw =>
    let maxValue : ℚ := 100
    let capped := raw.map fun p => (p.1, jMin p.2 maxValue)
    let normalized := jNormalizeHistogram capped
    let scaled := normalized.map fun p => (p.1, jRound100 p.2)
    Except.ok (jCreateCompressedHistogram sysNow scaled)

/-! ### Guard characterizations for the lifecycle classifier -/

theorem quietGuard_iff (ctx : StateContext) :
    quietGuard ctx = true ↔ ∃ q, ctx.quietUntil = some q ∧ ctx.now < q := by
  cases h : ctx.quietUntil <;> simp [quietGuard, h]

theorem noveltyGuard_iff (ctx : StateContext) :
    noveltyGuard ctx = true ↔
      ((ctx.now - ctx.createdAt : ℤ) : ℚ) < 24 * (1000 * 60 * 60) := by
  simp only [noveltyGuard, NOVELTY_HOURS, decide_eq_true_eq]
  rw [div_lt_iff₀ (by norm_num)]

theorem streakGuard_iff (ctx : StateContext) :
    streakGuard ctx = true ↔ 5 ≤ ctx.ignoredStreak := by
  simp [streakGuard, IGNORED_STREAK_THRESHOLD]

theorem lastSeenGuard_iff (ctx : StateContext) :
    lastSeenGuard ctx = true ↔
      ∃ ls, ctx.lastSeenAt = some ls ∧
        7 * (1000 * 60 * 60 * 24) < ((ctx.now - ls : ℤ) : ℚ) := by
  cases h : ctx.lastSeenAt with
  | none => simp [lastSeenGuard, h]
  | some ls =>
    simp only [lastSeenGuard, h, DECAY_THRESHOLD_DAYS, gt_iff_lt, decide_eq_true_eq,
      Option.some.injEq]
    rw [lt_div_iff₀ (by norm_num)]
    constructor
    · intro hlt
      exact ⟨ls, rfl, by linarith⟩
    · rintro ⟨l, rfl, hlt⟩
      linarith

theorem quietGuard_false_iff (ctx : StateContext) :
    quietGuard ctx = false ↔ ¬(∃ q, ctx.quietUntil = some q ∧ ctx.now < q) := by
  rw [← quietGuard_iff]
  cases quietGuard ctx <;> simp

theorem noveltyGuard_false_iff (ctx : StateContext) :
    noveltyGuard ctx = false ↔
      ¬(((ctx.now - ctx.createdAt : ℤ) : ℚ) < 24 * (1000 * 60 * 60)) := by
  rw [← noveltyGuard_iff]
  cases noveltyGuard ctx <;> simp

theorem streakGuard_false_iff (ctx : StateContext) :
    streakGuard ctx = false ↔ ¬(5 ≤ ctx.ignoredStreak) := by
  rw [← streakGuard_iff]
  cases streakGuard ctx <;> simp

theorem lastSeenGuard_false_iff (ctx : StateContext) :
    lastSeenGuard ctx = false ↔
      ¬(∃ ls, ctx.lastSeenAt = some ls ∧
        7 * (1000 * 60 * 60 * 24) < ((ctx.now - ls : ℤ) : ℚ)) := by
  rw [← lastSeenGuard_iff]
  cases lastSeenGuard ctx <;> simp

theorem computeState_cases (ctx : StateContext) :
    (computeState ctx = ItemState.archived ↔ ctx.isRemoved = true) ∧
    (computeState ctx = ItemState.quieted ↔
      ctx.isRemoved = false ∧ quietGuard ctx = true) ∧
    (computeState ctx = ItemState.new ↔
      ctx.isRemoved = false ∧ quietGuard ctx = false ∧ noveltyGuard ctx = true) ∧
    (computeState ctx = ItemState.decaying ↔
      ctx.isRemoved = false ∧ quietGuard ctx = false ∧ noveltyGuard ctx = false ∧
      (streakGuard ctx = true ∨ lastSeenGuard ctx = true)) ∧
    (computeState ctx = ItemState.active ↔
      ctx.isRemoved = false ∧ quietGuard ctx = false ∧ noveltyGuard ctx = false ∧
      ¬(streakGuard ctx = true ∨ lastSeenGuard ctx = true)) := by
  unfold computeState
  split_ifs with h1 h2 h3 h4 h5 <;> simp_all

/-- C4: the lifecycle classifier returns exactly this priority order:
archived iff `isRemoved` (checked first, dominating all others); else quieted
iff `quietUntil` is set and strictly after now; else new iff now minus
createdAt is under the 24-hour novelty window; else decaying iff
`ignoredStreak >= 5` or `lastSeenAt` is set and now minus lastSeenAt exceeds
7 days; else active. -/
theorem computeState_priority (ctx : StateContext) :
    (computeState ctx = ItemState.archived ↔ ctx.isRemoved = true) ∧
    (computeState ctx = ItemState.quieted ↔
      ctx.isRemoved = false ∧
      (∃ q, ctx.quietUntil = some q ∧ ctx.now < q)) ∧
    (computeState ctx = ItemState.new ↔
      ctx.isRemoved = false ∧
      ¬(∃ q, ctx.quietUntil = some q ∧ ctx.now < q) ∧
      ((ctx.now - ctx.createdAt : ℤ) : ℚ) < 24 * (1000 * 60 * 60)) ∧
    (computeState ctx = ItemState.decaying ↔
      ctx.isRemoved = false ∧
      ¬(∃ q, ctx.quietUntil = some q ∧ ctx.now < q) ∧
      ¬(((ctx.now - ctx.createdAt : ℤ) : ℚ) < 24 * (1000 * 60 * 60)) ∧
      (5 ≤ ctx.ignoredStreak ∨
        ∃ ls, ctx.lastSeenAt = some ls ∧
          7 * (1000 * 60 * 60 * 24) < ((ctx.now - ls : ℤ) : ℚ))) ∧
    (computeState ctx = ItemState.active ↔
      ctx.isRemoved = false ∧
      ¬(∃ q, ctx.quietUntil = some q ∧ ctx.now < q) ∧
      ¬(((ctx.now - ctx.createdAt : ℤ) : ℚ) < 24 * (1000 * 60 * 60)) ∧
      ¬(5 ≤ ctx.ignoredStreak ∨
        ∃ ls, ctx.lastSeenAt = some ls ∧
          7 * (1000 * 60 * 60 * 24) < ((ctx.now - ls : ℤ) : ℚ))) := by
  obtain ⟨b1, b2, b3, b4, b5⟩ := computeState_cases ctx
  simp only [b1, b2, b3, b4, b5, quietGuard_iff, noveltyGuard_iff, streakGuard_iff,
    lastSeenGuard_iff, quietGuard_false_iff, noveltyGuard_false_iff,
    streakGuard_false_iff, lastSeenGuard_false_iff]
  exact ⟨trivial, trivial, trivial, trivial, trivial⟩

/-! ### Lookup lemmas for histogram updates -/

theorem hlookup_eq_zero_of_absent {K : Type} [DecidableEq K]
    (h : Histogram K) (k : K)
    (hk : (h.any fun p => decide (p.1 = k)) = false) : hlookup h k = 0 := by
  induction h with
  | nil => rfl
  | cons p t ih =>
    simp only [List.any_cons, Bool.or_eq_false_iff, decide_eq_false_iff_not] at hk
    simp [hlookup, hk.1, ih hk.2]

theorem hlookup_map_update {K : Type} [DecidableEq K]
    (h : Histogram K) (k : K) (a : ℚ) :
    (h.any fun p => decide (p.1 = k)) = true →
    hlookup (h.map fun p => if p.1 = k then (p.1, p.2 + a) else p) k
      = hlookup h k + a := by
  induction h with
  | nil => intro hk; simp at hk
  | cons p t ih =>
    intro hk
    by_cases hp : p.1 = k
    · simp [hlookup, hp]
    · simp only [List.any_cons, decide_eq_true_eq, Bool.or_eq_true] at hk
      rcases hk with hk | hk
      · exact absurd hk hp
      · simp [hlookup, hp, ih hk]

theorem hlookup_append_single {K : Type} [DecidableEq K]
    (h : Histogram K) (k : K) (a : ℚ)
    (hk : (h.any fun p => decide (p.1 = k)) = false) :
    hlookup (h ++ [(k, a)]) k = a := by
  induction h with
  | nil => simp [hlookup]
  | cons p t ih =>
    simp only [List.any_cons, Bool.or_eq_false_iff, decide_eq_false_iff_not] at hk
    simp [hlookup, hk.1, ih hk.2]

theorem hlookup_addToHistogram_self {K : Type} [DecidableEq K]
    (h : Histogram K) (k : K) (a : ℚ) :
    hlookup (addToHistogram h k a) k = hlookup h k + a := by
  unfold addToHistogram
  by_cases hk : (h.any fun p => decide (p.1 = k)) = true
  · rw [if_pos hk, hlookup_map_update h k a hk]
  · have hk' : (h.any fun p => decide (p.1 = k)) = false := by
      cases hb : (h.any fun p => decide (p.1 = k)) with
      | true => exact absurd hb hk
      | false => rfl
    rw [if_neg hk, hlookup_append_single h k a hk',
      hlookup_eq_zero_of_absent h k hk', zero_add]

/-- C7: for every item and context, `recordInteraction` with action `seen`
increments `seenCount` by 1, sets `lastSeenAt` to `context.now` and resets
`ignoredStreak` to 0; with `opened` it increments `openedCount` by 1, sets
`lastSeenAt` to `context.now` and resets `ignoredStreak` to 0; with
`dismissed` it increments `dismissedCount` by 1, increments `ignoredStreak`
by 1 and leaves `lastSeenAt` unchanged; and each of the three actions
additionally increments the hour, day, place and device histograms at the
keys derived from the context by exactly +1 each. -/
theorem recordInteraction_effects (item : Item) (ctx : Context) :
    ((recordInteraction item "seen" ctx).1.signals.seenCount
        = item.signals.seenCount + 1 ∧
      (recordInteraction item "seen" ctx).1.signals.lastSeenAt = some ctx.now ∧
      (recordInteraction item "seen" ctx).1.signals.ignoredStreak = 0 ∧
      hlookup ((recordInteraction item "seen" ctx).1.signals.hourHistogram.getD [])
          (jsHours ctx.now)
        = hlookup (item.signals.hourHistogram.getD []) (jsHours ctx.now) + 1 ∧
      hlookup ((recordInteraction item "seen" ctx).1.signals.dayHistogram.getD [])
          (jsDay ctx.now)
        = hlookup (item.signals.dayHistogram.getD []) (jsDay ctx.now) + 1 ∧
      hlookup ((recordInteraction item "seen" ctx).1.signals.placeHistogram.getD [])
          ctx.place
        = hlookup (item.signals.placeHistogram.getD []) ctx.place + 1 ∧
      hlookup ((recordInteraction item "seen" ctx).1.signals.deviceHistogram.getD [])
          ctx.device
        = hlookup (item.signals.deviceHistogram.getD []) ctx.device + 1) ∧
    ((recordInteraction item "opened" ctx).1.signals.openedCount
        = item.signals.openedCount + 1 ∧
      (recordInteraction item "opened" ctx).1.signals.lastSeenAt = some ctx.now ∧
      (recordInteraction item "opened" ctx).1.signals.ignoredStreak = 0 ∧
      hlookup ((recordInteraction item "opened" ctx).1.signals.hourHistogram.getD [])
          (jsHours ctx.now)
        = hlookup (item.signals.hourHistogram.getD []) (jsHours ctx.now) + 1 ∧
      hlookup ((recordInteraction item "opened" ctx).1.signals.dayHistogram.getD [])
          (jsDay ctx.now)
        = hlookup (item.signals.dayHistogram.getD []) (jsDay ctx.now) + 1 ∧
      hlookup ((recordInteraction item "opened" ctx).1.signals.placeHistogram.getD [])
          ctx.place
        = hlookup (item.signals.placeHistogram.getD []) ctx.place + 1 ∧
      hlookup ((recordInteraction item "opened" ctx).1.signals.deviceHistogram.getD [])
          ctx.device
        = hlookup (item.signals.deviceHistogram.getD []) ctx.device + 1) ∧
    ((recordInteraction item "dismissed" ctx).1.signals.dismissedCount
        = item.signals.dismissedCount + 1 ∧
      (recordInteraction item "dismissed" ctx).1.signals.ignoredStreak
        = item.signals.ignoredStreak + 1 ∧
      (recordInteraction item "dismissed" ctx).1.signals.lastSeenAt
        = item.signals.lastSeenAt ∧
      hlookup ((recordInteraction item "dismissed" ctx).1.signals.hourHistogram.getD [])
          (jsHours ctx.now)
        = hlookup (item.signals.hourHistogram.getD []) (jsHours ctx.now) + 1 ∧
      hlookup ((recordInteraction item "dismissed" ctx).1.signals.dayHistogram.getD [])
          (jsDay ctx.now)
        = hlookup (item.signals.dayHistogram.getD []) (jsDay ctx.now) + 1 ∧
      hlookup ((recordInteraction item "dismissed" ctx).1.signals.placeHistogram.getD [])
          ctx.place
        = hlookup (item.signals.placeHistogram.getD []) ctx.place + 1 ∧
      hlookup ((recordInteraction item "dismissed" ctx).1.signals.deviceHistogram.getD [])
          ctx.device
        = hlookup (item.signals.deviceHistogram.getD []) ctx.device + 1) := by
  refine ⟨⟨rfl, rfl, rfl, ?_, ?_, ?_, ?_⟩,
    ⟨rfl, rfl, rfl, ?_, ?_, ?_, ?_⟩,
    ⟨rfl, rfl, rfl, ?_, ?_, ?_, ?_⟩⟩ <;>
    exact hlookup_addToHistogram_self _ _ 1

/-- C10: `recordInteraction` with an action tag other than `seen`, `opened`
or `dismissed` leaves `seenCount`, `openedCount`, `dismissedCount`,
`ignoredStreak` and `lastSeenAt` unchanged in the returned item, yet still
increments all four histograms at the keys derived from the context by +1
each. -/
theorem recordInteraction_unknown_action (item : Item) (action : String)
    (ctx : Context) (h1 : action ≠ "seen") (h2 : action ≠ "opened")
    (h3 : action ≠ "dismissed") :
    (recordInteraction item action ctx).1.signals.seenCount
        = item.signals.seenCount ∧
    (recordInteraction item action ctx).1.signals.openedCount
        = item.signals.openedCount ∧
    (recordInteraction item action ctx).1.signals.dismissedCount
        = item.signals.dismissedCount ∧
    (recordInteraction item action ctx).1.signals.ignoredStreak
        = item.signals.ignoredStreak ∧
    (recordInteraction item action ctx).1.signals.lastSeenAt
        = item.signals.lastSeenAt ∧
    hlookup ((recordInteraction item action ctx).1.signals.hourHistogram.getD [])
        (jsHours ctx.now)
      = hlookup (item.signals.hourHistogram.getD []) (jsHours ctx.now) + 1 ∧
    hlookup ((recordInteraction item action ctx).1.signals.dayHistogram.getD [])
        (jsDay ctx.now)
      = hlookup (item.signals.dayHistogram.getD []) (jsDay ctx.now) + 1 ∧
    hlookup ((recordInteraction item action ctx).1.signals.placeHistogram.getD [])
        ctx.place
      = hlookup (item.signals.placeHistogram.getD []) ctx.place + 1 ∧
    hlookup ((recordInteraction item action ctx).1.signals.deviceHistogram.getD [])
        ctx.device
      = hlookup (item.signals.deviceHistogram.getD []) ctx.device + 1 := by
  simp only [recordInteraction, if_neg h1, if_neg h2, if_neg h3]
  simp [hlookup_addToHistogram_self]

/-- Closed witness for `recordInteraction_unknown_action` at the action tag
`"pinned"`, which is none of the three recognized tags. -/
theorem recordInteraction_unknown_action_witness :
    (recordInteraction
        { id := "w", title := "w", createdAt := 0,
          signals :=
            { seenCount := 2, openedCount := 1, dismissedCount := 0,
              lastSeenAt := some 5, ignoredStreak := 3, isPinned := false,
              pinUntil := none, quietUntil := none, isRemoved := false,
              hourHistogram := none, dayHistogram := none,
              placeHistogram := none, deviceHistogram := none },
          computed := none }
        "pinned"
        { now := 0, hour := 0, day := 4, device := "desktop", place := "home",
          sessionId := "s" }).1.signals.seenCount = 2 ∧
    (recordInteraction
        { id := "w", title := "w", createdAt := 0,
          signals :=
            { seenCount := 2, openedCount := 1, dismissedCount := 0,
              lastSeenAt := some 5, ignoredStreak := 3, isPinned := false,
              pinUntil := none, quietUntil := none, isRemoved := false,
              hourHistogram := none, dayHistogram := none,
              placeHistogram := none, deviceHistogram := none },
          computed := none }
        "pinned"
        { now := 0, hour := 0, day := 4, device := "desktop", place := "home",
          sessionId := "s" }).1.signals.ignoredStreak = 3 := by
  have h := recordInteraction_unknown_action
    { id := "w", title := "w", createdAt := 0,
      signals :=
        { seenCount := 2, openedCount := 1, dismissedCount := 0,
          lastSeenAt := some 5, ignoredStreak := 3, isPinned := false,
          pinUntil := none, quietUntil := none, isRemoved := false,
          hourHistogram := none, dayHistogram := none,
          placeHistogram := none, deviceHistogram := none },
      computed := none }
    "pinned"
    { now := 0, hour := 0, day := 4, device := "desktop", place := "home",
      sessionId := "s" }
    (by decide) (by decide) (by decide)
  exact ⟨h.1, h.2.2.2.1⟩

/-! ### C2: recordInteraction and its input item -/

/-- A context whose instant lies at hour 10 and weekday 4 (UTC) of the epoch
day. -/
def ctxC2 : Context :=
  { now := 36000000, hour := 10, day := 4, device := "desktop", place := "work",
    sessionId := "s" }

/-- An item whose four histogram fields hold objects with one entry each —
exactly the shape a previous `recordInteraction` call leaves behind. -/
def itemC2 : Item :=
  { id := "i1", title := "call the bank", createdAt := 0,
    signals :=
      { seenCount := 1, openedCount := 0, dismissedCount := 0,
        lastSeenAt := some 0, ignoredStreak := 0, isPinned := false,
        pinUntil := none, quietUntil := none, isRemoved := false,
        hourHistogram := some [(10, 1)], dayHistogram := some [(4, 1)],
        placeHistogram := some [("work", 1)],
        deviceHistogram := some [("desktop", 1)] },
    computed := none }

/-- C2 fails on the code: `recordInteraction` shallow-copies the signals, so
the histogram objects stay shared with the input item and the in-place
histogram writes are visible through it — after the call the input item's
hour histogram reads 2 where it read 1 before.  The second component of the
embedded `recordInteraction` is the input item as it stands after the call. -/
theorem recordInteraction_mutates_input :
    (recordInteraction itemC2 "seen" ctxC2).2 ≠ itemC2 ∧
    itemC2.signals.hourHistogram = some [(10, 1)] ∧
    (recordInteraction itemC2 "seen" ctxC2).2.signals.hourHistogram
      = some [(10, 2)] := by
  have hmut : (recordInteraction itemC2 "seen" ctxC2).2.signals.hourHistogram
      = some [(10, 2)] := by
    show some (addToHistogram [(10, 1)] (jsHours 36000000) 1) = some [(10, 2)]
    have hhour : jsHours 36000000 = 10 := by decide
    rw [hhour]
    unfold addToHistogram
    norm_num
  refine ⟨?_, rfl, hmut⟩
  intro hEq
  have hsame : (recordInteraction itemC2 "seen" ctxC2).2.signals.hourHistogram
      = itemC2.signals.hourHistogram := by rw [hEq]
  rw [hmut] at hsame
  norm_num [itemC2] at hsame

/-! ### C5: decayHistogram with factor 1 -/

/-- C5 fails as stated: a histogram carrying a non-negative weight below 0.01
is not fixed by decay with factor 1 — the entry is dropped entirely, because
`decayHistogram` keeps only entries whose scaled value is at least 0.01. -/
theorem decayHistogram_factor_one_cx :
    decayHistogram [("a", (1 : ℚ) / 200)] 1 ≠ [("a", (1 : ℚ) / 200)] := by
  have hempty : decayHistogram [("a", (1 : ℚ) / 200)] 1 = [] := by
    unfold decayHistogram
    rw [List.filterMap_cons,
      if_neg (by norm_num : ¬(("a", (1 : ℚ) / 200).2 * 1 ≥ 1 / 100))]
    rfl
  rw [hempty]
  simp

/-- C5 as amended: decay with factor 1 is a no-op on every histogram all of
whose weights are at least 0.01 (hence idempotent under repetition there),
and for every histogram with non-negative weights and every factor strictly
below 1 the total mass of the result is at most the total mass of the
input. -/
theorem decayHistogram_noop_and_mass :
    (∀ (h : Histogram String), (∀ p ∈ h, (1 : ℚ) / 100 ≤ p.2) →
      decayHistogram h 1 = h) ∧
    (∀ (h : Histogram String) (factor : ℚ), (∀ p ∈ h, 0 ≤ p.2) → factor < 1 →
      getHistogramTotal (decayHistogram h factor) ≤ getHistogramTotal h) := by
  constructor
  · intro h hw
    induction h with
    | nil => rfl
    | cons p t ih =>
      have hp : p.2 * 1 ≥ (1 : ℚ) / 100 := by
        simpa using hw p (by simp)
      have ht : ∀ q ∈ t, (1 : ℚ) / 100 ≤ q.2 := fun q hq => hw q (by simp [hq])
      unfold decayHistogram at ih ⊢
      rw [List.filterMap_cons, if_pos hp, ih ht, mul_one]
  · intro h factor hw hf
    induction h with
    | nil => simp [decayHistogram, getHistogramTotal]
    | cons p t ih =>
      have hp0 : 0 ≤ p.2 := hw p (by simp)
      have ht0 : ∀ q ∈ t, 0 ≤ q.2 := fun q hq => hw q (by simp [hq])
      have hle : p.2 * factor ≤ p.2 :=
        mul_le_of_le_one_right hp0 (le_of_lt hf)
      simp only [decayHistogram, List.filterMap_cons, getHistogramTotal] at *
      by_cases hg : p.2 * factor ≥ 1 / 100
      · rw [if_pos hg]
        simp only [List.map_cons, List.sum_cons]
        exact add_le_add hle (ih ht0)
      · rw [if_neg hg]
        simp only [List.map_cons, List.sum_cons]
        calc (List.map Prod.snd (t.filterMap _)).sum
            ≤ (List.map Prod.snd t).sum := ih ht0
          _ ≤ p.2 + (List.map Prod.snd t).sum := le_add_of_nonneg_left hp0

/-- Closed witness for `decayHistogram_noop_and_mass`: the no-op part at the
one-entry histogram of weight 1 and the mass part at the same histogram with
factor one half. -/
theorem decayHistogram_noop_and_mass_witness :
    decayHistogram [("a", (1 : ℚ))] 1 = [("a", (1 : ℚ))] ∧
    getHistogramTotal (decayHistogram [("a", (1 : ℚ))] (1 / 2))
      ≤ getHistogramTotal [("a", (1 : ℚ))] :=
  ⟨decayHistogram_noop_and_mass.1 [("a", (1 : ℚ))] (by norm_num),
    decayHistogram_noop_and_mass.2 [("a", (1 : ℚ))] (1 / 2) (by norm_num)
      (by norm_num)⟩

/-! ### C8: the compression invariant -/

theorem decayHistogram_mem_ge {K : Type} (h : Histogram K) (factor : ℚ) :
    ∀ p ∈ decayHistogram h factor, (1 : ℚ) / 100 ≤ p.2 := by
  intro p hp
  simp only [decayHistogram, List.mem_filterMap] at hp
  obtain ⟨a, _, ha⟩ := hp
  by_cases hg : a.2 * factor ≥ 1 / 100
  · rw [if_pos hg] at ha
    cases ha
    exact hg
  · rw [if_neg hg] at ha
    cases ha

theorem addToHistogram_mem_ge {K : Type} [DecidableEq K]
    (h : Histogram K) (k : K) (hw : ∀ p ∈ h, (1 : ℚ) / 100 ≤ p.2) :
    ∀ p ∈ addToHistogram h k 1, (1 : ℚ) / 100 ≤ p.2 := by
  intro p hp
  unfold addToHistogram at hp
  split at hp
  · simp only [List.mem_map] at hp
    obtain ⟨a, ha, rfl⟩ := hp
    by_cases hak : a.1 = k
    · rw [if_pos hak]
      have := hw a ha
      simp only []
      linarith
    · rw [if_neg hak]
      exact hw a ha
  · rcases List.mem_append.mp hp with hin | hin
    · exact hw p hin
    · simp only [List.mem_singleton] at hin
      rw [hin]
      norm_num

theorem jsRound2_ge (v : ℚ) (hv : (1 : ℚ) / 100 ≤ v) :
    (1 : ℚ) / 100 ≤ jsRound2 v := by
  unfold jsRound2 jsRound
  rw [div_le_div_iff₀ (by norm_num) (by norm_num)]
  have h1 : (1 : ℤ) ≤ ⌊v * 100 + 1 / 2⌋ := by
    rw [Int.le_floor]
    push_cast
    nlinarith
  calc (1 : ℚ) * 100 = 100 := by norm_num
    _ ≤ (⌊v * 100 + 1 / 2⌋ : ℚ) * 100 := by
        have : (1 : ℚ) ≤ (⌊v * 100 + 1 / 2⌋ : ℚ) := by exact_mod_cast h1
        nlinarith

/-- C8: every weight in the result of `decayHistogram` (any factor) and of
`compressHistogram` (decay, optional fold-in of one observation, rounding to
2 decimal places) is at least 0.01 — entries whose weight falls below 0.01
are removed entirely.  (In this rational-number model every weight is finite
by construction, and at least 0.01 implies non-negative.) -/
theorem histogram_compression_invariant (h : Histogram String) (factor : ℚ)
    (newObservation : Option String) (_hw : ∀ p ∈ h, (0 : ℚ) ≤ p.2) :
    (∀ p ∈ decayHistogram h factor, (1 : ℚ) / 100 ≤ p.2) ∧
    (∀ p ∈ compressHistogram h newObservation, (1 : ℚ) / 100 ≤ p.2) := by
  refine ⟨decayHistogram_mem_ge h factor, ?_⟩
  cases newObservation with
  | none =>
    intro p hp
    unfold compressHistogram at hp
    simp only [List.mem_map] at hp
    obtain ⟨a, ha, rfl⟩ := hp
    exact jsRound2_ge a.2 (decayHistogram_mem_ge h DECAY_FACTOR a ha)
  | some k =>
    intro p hp
    unfold compressHistogram at hp
    simp only [List.mem_map] at hp
    obtain ⟨a, ha, rfl⟩ := hp
    exact jsRound2_ge a.2
      (addToHistogram_mem_ge (decayHistogram h) k
        (decayHistogram_mem_ge h DECAY_FACTOR) a ha)

/-- Closed witness for `histogram_compression_invariant` at the two-entry
histogram with weights 2 and 0.004, factor one half and one new
observation. -/
theorem histogram_compression_invariant_witness :
    (∀ p ∈ decayHistogram [("a", (2 : ℚ)), ("b", (1 : ℚ) / 250)] (1 / 2),
      (1 : ℚ) / 100 ≤ p.2) ∧
    (∀ p ∈ compressHistogram [("a", (2 : ℚ)), ("b", (1 : ℚ) / 250)] (some "c"),
      (1 : ℚ) / 100 ≤ p.2) :=
  histogram_compression_invariant [("a", (2 : ℚ)), ("b", (1 : ℚ) / 250)]
    (1 / 2) (some "c") (by norm_num)

/-! ### C3: determinism and the system clock -/

/-- A compressed histogram last updated at the epoch, used below to exhibit
the clock dependence of `applyRollingWindow`. -/
def histC3 : CompressedHistogram String :=
  { values := [("a", 1)], total := 1, lastUpdated := 0, windowDays := 30 }

/-- C3 fails on the code: `applyRollingWindow` reads the system clock
(`const now = new Date()`), so two calls on the same histogram argument made
at different wall-clock instants return different results — here the epoch
instant leaves the value 1 untouched while the instant two days later decays
it twice to 0.9025.  (`createStateContext` and `createCompressedHistogram`
read `new Date()` the same way.) -/
theorem applyRollingWindow_clock_cx :
    (applyRollingWindow 0 histC3).values
      ≠ (applyRollingWindow 172800000 histC3).values := by
  have h0 : (applyRollingWindow 0 histC3).values = [("a", 1)] := by
    show (fun v => decayHistogram v)^[(Int.floor (((0 - histC3.lastUpdated : ℤ) : ℚ) / 86400000)).toNat]
      histC3.values = [("a", 1)]
    norm_num [histC3]
  have h2 : (applyRollingWindow 172800000 histC3).values = [("a", 361 / 400)] := by
    show (fun v => decayHistogram v)^[(Int.floor (((172800000 - histC3.lastUpdated : ℤ) : ℚ) / 86400000)).toNat]
      histC3.values = [("a", 361 / 400)]
    have hiter : (Int.floor (((172800000 - histC3.lastUpdated : ℤ) : ℚ) / 86400000)).toNat = 2 := by
      norm_num [histC3]
      rfl
    rw [hiter]
    show decayHistogram (decayHistogram histC3.values) = [("a", 361 / 400)]
    have hd1 : decayHistogram histC3.values = [("a", 19 / 20)] := by
      unfold decayHistogram histC3
      rw [List.filterMap_cons,
        if_pos (by norm_num [DECAY_FACTOR] : ("a", (1 : ℚ)).2 * DECAY_FACTOR ≥ 1 / 100)]
      norm_num [DECAY_FACTOR]
    rw [hd1]
    unfold decayHistogram
    rw [List.filterMap_cons,
      if_pos (by norm_num [DECAY_FACTOR] : ("a", (19 : ℚ) / 20).2 * DECAY_FACTOR ≥ 1 / 100)]
    norm_num [DECAY_FACTOR]
  rw [h0, h2]
  intro hcontra
  have := List.head_eq_of_cons_eq hcontra
  have h3 := congrArg Prod.snd this
  norm_num at h3

/-- C3 as amended: the functions that read the system clock (`new Date()`)
are `applyRollingWindow`, `createCompressedHistogram`, `createStateContext`,
and `migrateToCompressed`, which ends in a `createCompressedHistogram` call
and so inherits the clock stamp; every other engine function derives all its
time values from `context.now` or explicit arguments (their embeddings take
no clock parameter).  The clock dependence of each reader is exactly this:
the clock reaches the values of `applyRollingWindow` only through the count
of whole days elapsed since `lastUpdated` (two instants in the same
whole-day window yield equal values) and is stamped verbatim into
`lastUpdated`; `createStateContext` copies it verbatim into the `now` field;
and in `migrateToCompressed` the clock touches nothing but the `lastUpdated`
stamp — the migrated values (and the recomputed total and window) are
identical across instants. -/
theorem clock_dependence_amended :
    (∀ (t t' : Int) (h : CompressedHistogram String),
      (Int.floor (((t - h.lastUpdated : ℤ) : ℚ) / 86400000)).toNat
        = (Int.floor (((t' - h.lastUpdated : ℤ) : ℚ) / 86400000)).toNat →
      (applyRollingWindow t h).values = (applyRollingWindow t' h).values) ∧
    (∀ (t : Int) (h : CompressedHistogram String),
      (applyRollingWindow t h).lastUpdated = t) ∧
    (∀ (t : Int) (s : LCSignals) (r : Bool),
      (createStateContext t s r).now = t) ∧
    (∀ (t t' : Int) (h : JHist),
      ∃ c c', migrateToCompressed t (some h) = Except.ok c ∧
        migrateToCompressed t' (some h) = Except.ok c' ∧
        c.values = c'.values ∧ c.total = c'.total ∧
        c.windowDays = c'.windowDays ∧
        c.lastUpdated = t ∧ c'.lastUpdated = t') := by
  refine ⟨?_, fun t h => rfl, fun t s r => rfl,
    fun t t' h => ⟨_, _, rfl, rfl, rfl, rfl, rfl, rfl, rfl⟩⟩
  intro t t' h heq
  show (fun v => decayHistogram v)^[(Int.floor (((t - h.lastUpdated : ℤ) : ℚ) / 86400000)).toNat] h.values
    = (fun v => decayHistogram v)^[(Int.floor (((t' - h.lastUpdated : ℤ) : ℚ) / 86400000)).toNat] h.values
  rw [heq]

/-- Closed witness for `clock_dependence_amended`: the instants 0 and 3600000
lie in the same whole-day window of `histC3`, the clock stamp and `now`
fields come back verbatim, and a one-entry legacy histogram migrated at the
instants 0 and 3600000 yields identical values with the two distinct
stamps. -/
theorem clock_dependence_amended_witness :
    ((applyRollingWindow 0 histC3).values
      = (applyRollingWindow 3600000 histC3).values) ∧
    ((applyRollingWindow 3600000 histC3).lastUpdated = 3600000) ∧
    ((createStateContext 5
      { createdAt := 0, lastSeenAt := none, quietUntil := none,
        ignoredStreak := 0 } true).now = 5) ∧
    (∃ c c', migrateToCompressed 0 (some [("a", some 4)]) = Except.ok c ∧
      migrateToCompressed 3600000 (some [("a", some 4)]) = Except.ok c' ∧
      c.values = c'.values ∧ c.total = c'.total ∧
      c.windowDays = c'.windowDays ∧
      c.lastUpdated = 0 ∧ c'.lastUpdated = 3600000) :=
  ⟨clock_dependence_amended.1 0 3600000 histC3 (by norm_num [histC3]),
    clock_dependence_amended.2.1 3600000 histC3,
    clock_dependence_amended.2.2.1 5
      { createdAt := 0, lastSeenAt := none, quietUntil := none,
        ignoredStreak := 0 } true,
    clock_dependence_amended.2.2.2 0 3600000 [("a", some 4)]⟩

/-! ### C1: rankItems and archived items -/

/-- An item whose `isRemoved` flag is set, created well outside the novelty
window of the context below. -/
def remItem : Item :=
  { id := "r1", title := "finished task", createdAt := 0,
    signals :=
      { seenCount := 0, openedCount := 0, dismissedCount := 0,
        lastSeenAt := none, ignoredStreak := 0, isPinned := false,
        pinUntil := none, quietUntil := none, isRemoved := true,
        hourHistogram := none, dayHistogram := none,
        placeHistogram := none, deviceHistogram := none },
    computed := none }

def ctxC1 : Context :=
  { now := 1000000000, hour := 10, day := 1, device := "desktop",
    place := "work", sessionId := "s" }

/-- C1 fails on the code: `rankItems` maps the scorer over every input item
and never filters, so an item with `isRemoved` set appears in both `all` and
`visible` — here a single removed item is the sole element of both arrays. -/
theorem rankItems_surfaces_removed_cx :
    ((rankItems [remItem] ctxC1 5).all.map fun i => i.signals.isRemoved)
        = [true] ∧
    ((rankItems [remItem] ctxC1 5).visible.map fun i => i.signals.isRemoved)
        = [true] :=
  ⟨rfl, rfl⟩

/-- C1 as amended: `rankItems` applies no archived filter at all — every
input item, the removed ones included, is scored and appears in `all`
exactly once (the length and the count of removed items are both preserved),
and removed items may appear in `visible`. -/
theorem rankItems_no_archived_filter (items : List Item) (ctx : Context)
    (maxVisible : Nat) :
    (rankItems items ctx maxVisible).all.length = items.length ∧
    ((rankItems items ctx maxVisible).all.filter
        fun i => i.signals.isRemoved).length
      = (items.filter fun i => i.signals.isRemoved).length := by
  have hperm : (rankItems items ctx maxVisible).all.Perm
      (items.map (scoreItem ctx)) :=
    List.perm_insertionSort rankLE _
  constructor
  · rw [hperm.length_eq, List.length_map]
  · rw [(hperm.filter _).length_eq, List.filter_map, List.length_map]
    rfl

/-! ### C6: sortedness, stability and the visible prefix -/

theorem filter_orderedInsert_score_pos (s : ℚ) (x : Item) (hx : cscore x = s)
    (l : List Item) :
    ((l.orderedInsert rankLE x).filter fun i => decide (cscore i = s))
      = x :: (l.filter fun i => decide (cscore i = s)) := by
  induction l with
  | nil => simp [List.orderedInsert, hx]
  | cons b l ih =>
    by_cases hrb : rankLE x b
    · simp only [List.orderedInsert]
      rw [if_pos hrb]
      simp [List.filter_cons, hx]
    · simp only [List.orderedInsert]
      rw [if_neg hrb]
      have hb : cscore b ≠ s := fun hbs => hrb (le_of_eq (hbs.trans hx.symm))
      simp [List.filter_cons, hb, ih, hx]

theorem filter_orderedInsert_score_neg (s : ℚ) (x : Item) (hx : cscore x ≠ s)
    (l : List Item) :
    ((l.orderedInsert rankLE x).filter fun i => decide (cscore i = s))
      = l.filter fun i => decide (cscore i = s) := by
  induction l with
  | nil => simp [List.orderedInsert, hx]
  | cons b l ih =>
    by_cases hrb : rankLE x b
    · simp only [List.orderedInsert]
      rw [if_pos hrb]
      simp [List.filter_cons, hx]
    · simp only [List.orderedInsert]
      rw [if_neg hrb]
      simp [List.filter_cons, ih]

theorem filter_insertionSort_score (s : ℚ) (l : List Item) :
    ((l.insertionSort rankLE).filter fun i => decide (cscore i = s))
      = l.filter fun i => decide (cscore i = s) := by
  induction l with
  | nil => rfl
  | cons x l ih =>
    simp only [List.insertionSort]
    by_cases hx : cscore x = s
    · rw [filter_orderedInsert_score_pos s x hx, ih]
      simp [List.filter_cons, hx]
    · rw [filter_orderedInsert_score_neg s x hx, ih]
      simp [List.filter_cons, hx]

/-- C6: the `all` array of `rankItems` is sorted descending by computed
score; ties preserve the original collection order (stable sort), expressed
as: for every score value, the sublist of `all` at that score equals the
sublist of the scored items in input order at that score; and `visible` is
the prefix of `all` of length `min maxVisible all.length`. -/
theorem rankItems_sorted_stable_take (items : List Item) (ctx : Context)
    (maxVisible : Nat) :
    List.Sorted (fun a b => cscore b ≤ cscore a)
        (rankItems items ctx maxVisible).all ∧
    (∀ s : ℚ,
      ((rankItems items ctx maxVisible).all.filter
          fun i => decide (cscore i = s))
        = ((items.map (scoreItem ctx)).filter
            fun i => decide (cscore i = s))) ∧
    (rankItems items ctx maxVisible).visible
      = (rankItems items ctx maxVisible).all.take maxVisible ∧
    (rankItems items ctx maxVisible).visible.length
      = min maxVisible (rankItems items ctx maxVisible).all.length := by
  refine ⟨?_, ?_, rfl, ?_⟩
  · exact List.sorted_insertionSort rankLE (items.map (scoreItem ctx))
  · intro s
    exact filter_insertionSort_score s (items.map (scoreItem ctx))
  · exact List.length_take maxVisible _

/-! ### C9: the legacy migration -/

/-- C9 fails as stated: on a `null`/`undefined` argument — a malformed shape
a defensive normalizer would have to tolerate — `migrateToCompressed` throws
a TypeError at `Object.entries(rawHistogram)` instead of returning. -/
theorem migrateToCompressed_null_cx :
    migrateToCompressed 0 none
      = Except.error "TypeError: Cannot convert undefined or null to object" :=
  rfl

theorem capped_keys (l : JHist) :
    (l.map fun p => (p.1, jMin p.2 100)).map Prod.fst = l.map Prod.fst := by
  induction l with
  | nil => rfl
  | cons p t ih => simp only [List.map_cons, ih]

theorem scaled_keys (l : JHist) :
    (l.map fun p => (p.1, jRound100 p.2)).map Prod.fst = l.map Prod.fst := by
  induction l with
  | nil => rfl
  | cons p t ih => simp only [List.map_cons, ih]

theorem divided_keys (t : JNum) (l : JHist) :
    (l.map fun p => (p.1, jDiv p.2 t)).map Prod.fst = l.map Prod.fst := by
  induction l with
  | nil => rfl
  | cons p t ih => simp only [List.map_cons, ih]

theorem jTotal_spec (l : JHist) :
    ∀ acc : ℚ, (∀ p ∈ l, ∃ q, p.2 = some q ∧ 0 ≤ q) → 0 ≤ acc →
      ∃ T, l.foldl (fun a p => jAdd a p.2) (some acc) = some T ∧
        acc ≤ T ∧ ∀ p ∈ l, ∀ q, p.2 = some q → q ≤ T := by
  induction l with
  | nil =>
    intro acc _ _
    exact ⟨acc, rfl, le_refl acc, by simp⟩
  | cons p t ih =>
    intro acc hl hacc
    obtain ⟨q, hq, hq0⟩ := hl p (by simp)
    have hl' : ∀ r ∈ t, ∃ s, r.2 = some s ∧ 0 ≤ s :=
      fun r hr => hl r (by simp [hr])
    obtain ⟨T, hT, hle, hmem⟩ := ih (acc + q) hl' (by linarith)
    refine ⟨T, ?_, by linarith, ?_⟩
    · simp only [List.foldl_cons, hq, jAdd]
      exact hT
    · intro r hr s hs
      rcases List.mem_cons.mp hr with rfl | hr
      · have hsq : s = q := by
          rw [hq] at hs
          exact ((Option.some.injEq _ _).mp hs).symm
        rw [hsq]
        linarith
      · exact hmem r hr s hs

theorem jRound100_bounds (q : ℚ) (h0 : 0 ≤ q) (h1 : q ≤ 1) :
    ∃ n : ℤ, jRound100 (some q) = some (n : ℚ) ∧ 0 ≤ n ∧ n ≤ 100 := by
  refine ⟨jsRound (q * 100), rfl, ?_, ?_⟩
  · unfold jsRound
    rw [Int.le_floor]
    push_cast
    nlinarith
  · unfold jsRound
    have hlt : (⌊q * 100 + 1 / 2⌋ : ℤ) < 101 := by
      rw [Int.floor_lt]
      push_cast
      nlinarith
    omega

/-- C9 as amended: on every object argument — even one whose values are
non-numeric junk or negative — `migrateToCompressed` returns without
throwing; a TypeError escapes only for a `null`/`undefined` argument.  Every
key of the input passes through unchanged, and when all values are
non-negative numbers, every output weight is an integer between 0 and 100:
the value is capped at 100, normalized by the total to a probability,
rescaled by the 100-interaction baseline and rounded to an integer. -/
theorem migrateToCompressed_ok (sysNow : Int) (h : JHist) :
    ∃ c, migrateToCompressed sysNow (some h) = Except.ok c ∧
      c.values.map Prod.fst = h.map Prod.fst ∧
      ((∀ p ∈ h, jNonneg p.2 = true) →
        ∀ p ∈ c.values, ∃ n : ℤ, p.2 = some (n : ℚ) ∧ 0 ≤ n ∧ n ≤ 100) := by
  refine ⟨_, rfl, ?_, ?_⟩
  · show ((jNormalizeHistogram (h.map fun p => (p.1, jMin p.2 100))).map
        fun p => (p.1, jRound100 p.2)).map Prod.fst = h.map Prod.fst
    rw [scaled_keys]
    unfold jNormalizeHistogram
    split
    · exact capped_keys h
    · rw [divided_keys]
      exact capped_keys h
  · intro hpos
    have hex : ∀ p ∈ h, ∃ q, p.2 = some q ∧ 0 ≤ q := by
      intro p hp
      have hj := hpos p hp
      cases hpv : p.2 with
      | none => rw [hpv] at hj; simp [jNonneg] at hj
      | some q =>
        rw [hpv] at hj
        simp only [jNonneg, decide_eq_true_eq] at hj
        exact ⟨q, rfl, hj⟩
    have hcap : ∀ a ∈ (h.map fun p => (p.1, jMin p.2 100)),
        ∃ q, a.2 = some q ∧ 0 ≤ q := by
      intro a ha
      obtain ⟨b, hb, rfl⟩ := List.mem_map.mp ha
      obtain ⟨q, hq, hq0⟩ := hex b hb
      exact ⟨min q 100, by simp [jMin, hq],
        le_min hq0 (by norm_num)⟩
    obtain ⟨T, hT, hT0, hTmem⟩ :=
      jTotal_spec (h.map fun p => (p.1, jMin p.2 100)) 0 hcap (le_refl 0)
    have hTeq : jTotal (h.map fun p => (p.1, jMin p.2 100)) = some T := hT
    have hnorm : ∀ a ∈ jNormalizeHistogram (h.map fun p => (p.1, jMin p.2 100)),
        ∃ q, a.2 = some q ∧ 0 ≤ q ∧ q ≤ 1 := by
      unfold jNormalizeHistogram
      by_cases hz : jTotal (h.map fun p => (p.1, jMin p.2 100)) = some 0
      · rw [if_pos hz]
        intro a ha
        obtain ⟨q, hq, hq0⟩ := hcap a ha
        have hTz : T = 0 := by
          rw [hTeq] at hz
          exact (Option.some.injEq _ _).mp hz
        have hq0' : q = 0 :=
          le_antisymm (hTz ▸ hTmem a ha q hq) hq0
        exact ⟨q, hq, hq0, by rw [hq0']; norm_num⟩
      · rw [if_neg hz]
        intro a ha
        obtain ⟨b, hb, rfl⟩ := List.mem_map.mp ha
        obtain ⟨q, hq, hq0⟩ := hcap b hb
        have hTne : T ≠ 0 := by
          intro hTz
          rw [hTz] at hTeq
          exact hz hTeq
        have hTpos : 0 < T := lt_of_le_of_ne hT0 (Ne.symm hTne)
        refine ⟨q / T, ?_, div_nonneg hq0 (le_of_lt hTpos),
          (div_le_one hTpos).mpr (hTmem b hb q hq)⟩
        show jDiv b.2 (jTotal (h.map fun p => (p.1, jMin p.2 100))) = some (q / T)
        rw [hq, hTeq]
        rfl
    intro p hp
    obtain ⟨a, ha, rfl⟩ := List.mem_map.mp hp
    obtain ⟨q, hq, hq0, hq1⟩ := hnorm a ha
    obtain ⟨n, hn, hn0, hn100⟩ := jRound100_bounds q hq0 hq1
    refine ⟨n, ?_, hn0, hn100⟩
    show jRound100 a.2 = some (n : ℚ)
    rw [hq]
    exact hn

/-- Closed witness for `migrateToCompressed_ok` at a two-entry legacy
histogram with the non-negative numeric values 4 and 0. -/
theorem migrateToCompressed_ok_witness :
    ∃ c, migrateToCompressed 0 (some [("a", some 4), ("b", some 0)])
        = Except.ok c ∧
      c.values.map Prod.fst
        = ([("a", some 4), ("b", some 0)] : JHist).map Prod.fst ∧
      (∀ p ∈ c.values, ∃ n : ℤ, p.2 = some (n : ℚ) ∧ 0 ≤ n ∧ n ≤ 100) := by
  obtain ⟨c, h1, h2, h3⟩ :=
    migrateToCompressed_ok 0 [("a", some 4), ("b", some 0)]
  refine ⟨c, h1, h2, h3 ?_⟩
  intro p hp
  rcases List.mem_cons.mp hp with rfl | hp2
  · norm_num [jNonneg]
  rcases List.mem_cons.mp hp2 with rfl | hp3
  · norm_num [jNonneg]
  · exact absurd hp3 (List.not_mem_nil p)

end Orbit
